import Mathlib

/-
Verification development for the S3-to-DynamoDB stock ingestion lambda
(file src/S3-to-dynamodb.py). Strings are modelled as lists of characters;
the external S3 fetch is a parameter; the DynamoDB table is a key-value map
updated by upserts. All definitions are translated from the Python source.
-/

namespace Stocks

/-- Strings are modelled as lists of characters. -/
abbrev Str := List Char

/-- Accumulator version of single-character split, mirroring the Python
method str.split with a one-character separator: the accumulator collects
the current segment in reverse. -/
def splitOnAux (sep : Char) : Str → Str → List Str
  | [], acc => [acc.reverse]
  | c :: rest, acc =>
    if c = sep then acc.reverse :: splitOnAux sep rest []
    else splitOnAux sep rest (c :: acc)

/-- Python str.split(sep) for a one-character separator: always returns at
least one segment; adjacent separators yield empty segments. -/
def splitOn (sep : Char) (s : Str) : List Str :=
  splitOnAux sep s []

/-- Tests whether the first list is an initial segment of the second. -/
def startsWith : Str → Str → Bool
  | [], _ => true
  | _ :: _, [] => false
  | p :: ps, c :: cs => p = c && startsWith ps cs

/-- Python str.replace(pat, empty, 1): delete the first occurrence of pat,
scanning left to right; the string is unchanged when pat does not occur.
An empty pattern matches at position zero and deletes nothing. -/
def replaceFirst (pat : Str) : Str → Str
  | [] => []
  | c :: cs =>
    if startsWith pat (c :: cs) then List.drop pat.length (c :: cs)
    else c :: replaceFirst pat cs

/-- Whether pat occurs as a contiguous substring of s. -/
def occursIn (pat : Str) : Str → Bool
  | [] => startsWith pat []
  | c :: cs => startsWith pat (c :: cs) || occursIn pat cs

/-- Value of a digit string read in base ten (48 is the code of the digit
zero). Only meaningful when every character is a digit. -/
def digitsToNat (s : Str) : Nat :=
  s.foldl (fun acc c => acc * 10 + (c.toNat - 48)) 0

/-- Nonempty all-digit string parsed as a natural number, otherwise none.
Used for the digit runs of Python int() and Decimal(). -/
def parseDigits (s : Str) : Option Nat :=
  if !s.isEmpty && s.all Char.isDigit then some (digitsToNat s) else none

/-- Python int(string): optional sign followed by a nonempty digit run;
anything else fails (modelled as none). -/
def parseInt : Str → Option Int
  | [] => none
  | c :: rest =>
    if c = '-' then (parseDigits rest).map fun n => -(n : Int)
    else if c = '+' then (parseDigits rest).map fun n => (n : Int)
    else (parseDigits (c :: rest)).map fun n => (n : Int)

/-- Unsigned part of the Decimal(string) grammar used by safe_decimal:
digits with at most one point and at least one digit overall. Exponents and
special values are not exercised by this program and are omitted. -/
def parseUnsignedDec (s : Str) : Option ℚ :=
  match splitOn '.' s with
  | [ip] =>
    if !ip.isEmpty && ip.all Char.isDigit then some ((digitsToNat ip : ℚ))
    else none
  | [ip, fp] =>
    if (!ip.isEmpty || !fp.isEmpty) && ip.all Char.isDigit && fp.all Char.isDigit then
      some ((digitsToNat ip : ℚ) + (digitsToNat fp : ℚ) / (10 : ℚ) ^ fp.length)
    else none
  | _ => none

/-- Decimal(string) with an optional leading sign. -/
def parseDecimal : Str → Option ℚ
  | [] => parseUnsignedDec []
  | c :: rest =>
    if c = '-' then (parseUnsignedDec rest).map Neg.neg
    else if c = '+' then parseUnsignedDec rest
    else parseUnsignedDec (c :: rest)

/-- Translation of safe_decimal: try Decimal(str(value)) and return decimal
zero on any failure; the function is total, it never raises. -/
def safe_decimal (v : Str) : ℚ :=
  (parseDecimal v).getD 0

/-- Translation of extract_symbol_timestamp: split the key on slash, fail
(ValueError, modelled as none) when fewer than two segments result; symbol
is the second segment; the stem of the last segment (text before the first
point) with the first occurrence of the symbol removed is the timestamp. -/
def extract_symbol_timestamp (key : Str) : Option (Str × Str) :=
  let parts := splitOn '/' key
  if parts.length < 2 then none
  else
    let symbol := parts.getD 1 []
    let filename := (splitOn '.' (parts.getLastD [])).headD []
    let timestamp := replaceFirst symbol filename
    some (symbol, timestamp)

/-- Decimal rendering of a natural number, for the row index inside the
sort key. -/
def natToStr (n : Nat) : Str :=
  Nat.toDigits 10 n

/-- One parsed CSV row as produced by csv.DictReader, restricted to the
columns the handler reads; every field value is a raw string. -/
structure Row where
  date : Str
  open' : Str
  close : Str
  high : Str
  low : Str
  volume : Str
deriving DecidableEq

/-- One DynamoDB item as assembled in the put_item call of the handler. -/
structure Item where
  symbol_timestamp : Str
  row_key : Str
  symbol : Str
  timestamp : Str
  date : Str
  open' : ℚ
  close : ℚ
  high : ℚ
  low : ℚ
  volume : Int
deriving DecidableEq

/-- Placeholder row used only as the default of List.getD in statements. -/
def dRow : Row :=
  ⟨[], [], [], [], [], []⟩

/-- Placeholder item used only as the default of List.getD in statements. -/
def dItem : Item :=
  ⟨[], [], [], [], [], 0, 0, 0, 0, 0⟩

/-- Item built from one row at a given zero-based index, mirroring the body
of the put_item call: the partition key joins symbol and timestamp with an
underscore, the sort key joins the date field and the index; price fields
go through safe_decimal and volume through int(), whose failure makes the
whole row (and hence the item) fail. -/
def buildItem (symbol timestamp : Str) (idx : Nat) (row : Row) : Option Item :=
  match parseInt row.volume with
  | none => none
  | some v => some
      { symbol_timestamp := symbol ++ '_' :: timestamp
        row_key := row.date ++ '_' :: natToStr idx
        symbol := symbol
        timestamp := timestamp
        date := row.date
        open' := safe_decimal row.open'
        close := safe_decimal row.close
        high := safe_decimal row.high
        low := safe_decimal row.low
        volume := v }

/-- The enumerate loop inside the batch writer, started at index idx:
returns the items submitted before any failure together with a flag that is
true exactly when every row succeeded. A failing row ends the file; items
already submitted stand. -/
def processRowsFrom (symbol timestamp : Str) : Nat → List Row → List Item × Bool
  | _, [] => ([], true)
  | idx, row :: rest =>
    match buildItem symbol timestamp idx row with
    | none => ([], false)
    | some item =>
      let r := processRowsFrom symbol timestamp (idx + 1) rest
      (item :: r.1, r.2)

/-- The full per-file write loop, starting at row index zero. -/
def processRows (symbol timestamp : Str) (rows : List Row) : List Item × Bool :=
  processRowsFrom symbol timestamp 0 rows

/-- Content of the s3 entry of the first nested record of a sub-message:
either of the bucket name and object key may be absent, since the source
reads them outside the try block. -/
structure S3Rec where
  bucket_name : Option Str
  object_key : Option Str
deriving DecidableEq

/-- Result of the guarded parse of one SQS record body: malformed collapses
every failure inside the try block (body not valid JSON, no nested Records
key, or the indexing failing); parsed carries the nested Records array. -/
inductive SubMessage where
  | malformed : SubMessage
  | parsed : List S3Rec → SubMessage
deriving DecidableEq

/-- Outcome of one sub-message: skipped means a caught exception (logged
and the loop continues), crashed means an uncaught exception that aborts
the whole handler, ok n means the file succeeded with n rows. -/
inductive MsgResult where
  | skipped : MsgResult
  | crashed : MsgResult
  | ok : Nat → MsgResult
deriving DecidableEq

/-- One iteration of the loop over event Records. The fetch parameter
abstracts process_csv (S3 get_object, decode and DictReader); none models
any fetch or parse exception. Missing bucket name or object key in the
first nested record is read outside the try block in the source and hence
crashes. Returns the items put before any failure and the outcome. -/
def processMessage (fetch : Str → Str → Option (List Row)) :
    SubMessage → List Item × MsgResult
  | SubMessage.malformed => ([], MsgResult.skipped)
  | SubMessage.parsed [] => ([], MsgResult.skipped)
  | SubMessage.parsed (r :: _) =>
    match r.bucket_name, r.object_key with
    | some b, some k =>
      match extract_symbol_timestamp k with
      | none => ([], MsgResult.skipped)
      | some (symbol, timestamp) =>
        match fetch b k with
        | none => ([], MsgResult.skipped)
        | some rows =>
          let pr := processRows symbol timestamp rows
          (pr.1, if pr.2 then MsgResult.ok rows.length else MsgResult.skipped)
    | _, _ => ([], MsgResult.crashed)

/-- Accumulated state of the batch loop: the two counters, the items put so
far, and whether the loop ran to completion (false after a crash). -/
structure BatchAcc where
  files : Nat
  rows : Nat
  items : List Item
  completed : Bool
deriving DecidableEq

/-- The loop over event Records: a skipped message contributes only its
already-put items, a successful file bumps both counters, a crash abandons
the rest of the batch. -/
def processMessages (fetch : Str → Str → Option (List Row)) :
    List SubMessage → BatchAcc
  | [] => ⟨0, 0, [], true⟩
  | m :: ms =>
    let pr := processMessage fetch m
    match pr.2 with
    | MsgResult.crashed => ⟨0, 0, pr.1, false⟩
    | MsgResult.skipped =>
      let acc := processMessages fetch ms
      ⟨acc.files, acc.rows, pr.1 ++ acc.items, acc.completed⟩
    | MsgResult.ok n =>
      let acc := processMessages fetch ms
      ⟨acc.files + 1, acc.rows + n, pr.1 ++ acc.items, acc.completed⟩

/-- The lambda event: records is none when the event has no Records key. -/
structure Event where
  records : Option (List SubMessage)
deriving DecidableEq

/-- The dictionary returned by lambda_handler. -/
structure LambdaResult where
  statusCode : Nat
  message : Str
deriving DecidableEq

/-- The 200 message, mirroring the final f-string of the handler. -/
def processedMessage (files rows : Nat) : Str :=
  String.toList "Processed " ++ natToStr files ++ String.toList " files with "
    ++ natToStr rows ++ String.toList " rows into DynamoDB"

/-- Translation of lambda_handler. The first component is some result on a
normal return and none when an uncaught exception escapes; the second
component is the list of items put into the table during the invocation. -/
def lambda_handler (fetch : Str → Str → Option (List Row)) (event : Event) :
    Option LambdaResult × List Item :=
  match event.records with
  | none => (some ⟨400, String.toList "No SQS Records"⟩, [])
  | some msgs =>
    let acc := processMessages fetch msgs
    if acc.completed then
      (some ⟨200, processedMessage acc.files acc.rows⟩, acc.items)
    else (none, acc.items)

/-- The DynamoDB table, as a map from (partition key, sort key) to item. -/
abbrev Table := Str × Str → Option Item

/-- Composite key of an item. -/
def itemKey (it : Item) : Str × Str :=
  (it.symbol_timestamp, it.row_key)

/-- One upsert: overwrite whatever is stored under the item key. -/
def putItem (tbl : Table) (it : Item) : Table :=
  fun k => if itemKey it = k then some it else tbl k

/-- A sequence of upserts applied in order (later writes win). -/
def putItems : Table → List Item → Table
  | tbl, [] => tbl
  | tbl, it :: rest => putItems (putItem tbl it) rest

/-- Last item of the list whose key is k, if any. -/
def lastWrite : List Item → Str × Str → Option Item
  | [], _ => none
  | it :: rest, k =>
    match lastWrite rest k with
    | some r => some r
    | none => if itemKey it = k then some it else none

/-- A sub-message that cannot reach the unguarded bucket and key lookups:
either it fails inside the try block or its first nested record carries
both fields. -/
def wellFormedMsg : SubMessage → Bool
  | SubMessage.malformed => true
  | SubMessage.parsed [] => true
  | SubMessage.parsed (r :: _) => r.bucket_name.isSome && r.object_key.isSome

lemma startsWith_append_self (p x : Str) : startsWith p (p ++ x) = true := by
  induction p with
  | nil => rfl
  | cons c cs ih => simp [startsWith, ih]

lemma replaceFirst_append_self (pat b : Str) :
    replaceFirst pat (pat ++ b) = b := by
  cases pat with
  | nil =>
    cases b with
    | nil => rfl
    | cons c cs => simp [replaceFirst, startsWith]
  | cons p ps =>
    have hs : startsWith (p :: ps) (p :: (ps ++ b)) = true := by
      simpa using startsWith_append_self (p :: ps) b
    rw [List.cons_append, replaceFirst, hs]
    simp [List.drop_left]

lemma replaceFirst_first_occ (pat a b : Str)
    (h : ∀ i, i < a.length → startsWith pat (List.drop i (a ++ (pat ++ b))) = false) :
    replaceFirst pat (a ++ (pat ++ b)) = a ++ b := by
  induction a with
  | nil => simpa using replaceFirst_append_self pat b
  | cons c cs ih =>
    have h0 : startsWith pat (c :: (cs ++ (pat ++ b))) = false := by
      simpa using h 0 (by simp)
    have h' : ∀ i, i < cs.length → startsWith pat (List.drop i (cs ++ (pat ++ b))) = false := by
      intro i hi
      simpa using h (i + 1) (by simpa using Nat.succ_lt_succ hi)
    rw [List.cons_append, replaceFirst, h0]
    simp [ih h']

lemma replaceFirst_no_occ (pat s : Str) (h : occursIn pat s = false) :
    replaceFirst pat s = s := by
  induction s with
  | nil => rfl
  | cons c cs ih =>
    rw [occursIn] at h
    have h1 : startsWith pat (c :: cs) = false := by
      cases hs : startsWith pat (c :: cs) <;> simp [hs] at h ⊢
    have h2 : occursIn pat cs = false := by
      cases hs : occursIn pat cs <;> simp [hs] at h ⊢
    rw [replaceFirst, h1]
    simp [ih h2]

lemma processRowsFrom_all_ok (symbol timestamp : Str) (rows : List Row) :
    ∀ j, (∀ r ∈ rows, (parseInt r.volume).isSome = true) →
      (processRowsFrom symbol timestamp j rows).2 = true ∧
      (processRowsFrom symbol timestamp j rows).1.length = rows.length ∧
      ∀ i, i < rows.length →
        ((processRowsFrom symbol timestamp j rows).1.getD i dItem).symbol_timestamp
          = symbol ++ '_' :: timestamp ∧
        ((processRowsFrom symbol timestamp j rows).1.getD i dItem).row_key
          = (rows.getD i dRow).date ++ '_' :: natToStr (j + i) := by
  induction rows with
  | nil =>
    intro j _
    exact ⟨rfl, rfl, fun i hi => absurd hi (by simp)⟩
  | cons row rest ih =>
    intro j h
    have hrow : (parseInt row.volume).isSome = true := h row (by simp)
    obtain ⟨v, hv⟩ := Option.isSome_iff_exists.mp hrow
    have hrest : ∀ r ∈ rest, (parseInt r.volume).isSome = true :=
      fun r hr => h r (by simp [hr])
    obtain ⟨h1, h2, h3⟩ := ih (j + 1) hrest
    refine ⟨?_, ?_, ?_⟩
    · simp [processRowsFrom, buildItem, hv, h1]
    · simp [processRowsFrom, buildItem, hv, h2]
    · intro i hi
      cases i with
      | zero =>
        constructor <;> simp [processRowsFrom, buildItem, hv]
      | succ i' =>
        have hi' : i' < rest.length := by simpa using hi
        obtain ⟨ha, hb⟩ := h3 i' hi'
        constructor
        · simpa [processRowsFrom, buildItem, hv] using ha
        · have harith : j + 1 + i' = j + (i' + 1) := by omega
          rw [harith] at hb
          simpa [processRowsFrom, buildItem, hv] using hb

lemma processRowsFrom_bad (symbol timestamp : Str) (post : List Row) (bad : Row)
    (hbad : parseInt bad.volume = none) (pre : List Row) :
    ∀ j, (processRowsFrom symbol timestamp j (pre ++ bad :: post)).2 = false ∧
      (processRowsFrom symbol timestamp j (pre ++ bad :: post)).1.length ≤ pre.length := by
  induction pre with
  | nil =>
    intro j
    simp [processRowsFrom, buildItem, hbad]
  | cons row rest ih =>
    intro j
    cases hv : parseInt row.volume with
    | none => simp [processRowsFrom, buildItem, hv]
    | some v =>
      obtain ⟨h1, h2⟩ := ih (j + 1)
      constructor
      · simp [processRowsFrom, buildItem, hv, h1]
      · simp only [List.cons_append, processRowsFrom, buildItem, hv]
        simpa using Nat.succ_le_succ h2


lemma processMessage_not_crashed (fetch : Str → Str → Option (List Row))
    (m : SubMessage) (h : wellFormedMsg m = true) :
    (processMessage fetch m).2 ≠ MsgResult.crashed := by
  cases m with
  | malformed => simp [processMessage]
  | parsed recs =>
    cases recs with
    | nil => simp [processMessage]
    | cons r rs =>
      cases hb : r.bucket_name with
      | none => rw [wellFormedMsg] at h; simp [hb] at h
      | some b =>
        cases hk : r.object_key with
        | none => rw [wellFormedMsg] at h; simp [hk] at h
        | some k =>
          cases he : extract_symbol_timestamp k with
          | none => simp [processMessage, hb, hk, he]
          | some st =>
            obtain ⟨s, t⟩ := st
            cases hf : fetch b k with
            | none => simp [processMessage, hb, hk, he, hf]
            | some rows =>
              cases hp : (processRows s t rows).2 <;>
                simp [processMessage, hb, hk, he, hf, hp]

lemma processMessages_completed (fetch : Str → Str → Option (List Row)) :
    ∀ msgs : List SubMessage, (∀ m ∈ msgs, wellFormedMsg m = true) →
      (processMessages fetch msgs).completed = true := by
  intro msgs
  induction msgs with
  | nil => intro _; rfl
  | cons m ms ih =>
    intro h
    have hm := processMessage_not_crashed fetch m (h m (by simp))
    have hms := ih (fun x hx => h x (by simp [hx]))
    cases hr : (processMessage fetch m).2 with
    | crashed => exact absurd hr hm
    | skipped => simp [processMessages, hr, hms]
    | ok n => simp [processMessages, hr, hms]

lemma processMessages_malformed_cons (fetch : Str → Str → Option (List Row))
    (ms : List SubMessage) :
    processMessages fetch (SubMessage.malformed :: ms) = processMessages fetch ms := by
  simp [processMessages, processMessage]

lemma processMessage_skip_bad_volume (fetch : Str → Str → Option (List Row))
    (b k symbol timestamp : Str) (rows : List Row)
    (hext : extract_symbol_timestamp k = some (symbol, timestamp))
    (hfetch : fetch b k = some rows)
    (hbad : (processRows symbol timestamp rows).2 = false) :
    processMessage fetch (SubMessage.parsed [S3Rec.mk (some b) (some k)])
      = ((processRows symbol timestamp rows).1, MsgResult.skipped) := by
  simp [processMessage, hext, hfetch, hbad]

lemma processMessages_cons_skipped (fetch : Str → Str → Option (List Row))
    (m : SubMessage) (ms : List SubMessage)
    (h : (processMessage fetch m).2 = MsgResult.skipped) :
    processMessages fetch (m :: ms)
      = ⟨(processMessages fetch ms).files, (processMessages fetch ms).rows,
         (processMessage fetch m).1 ++ (processMessages fetch ms).items,
         (processMessages fetch ms).completed⟩ := by
  simp [processMessages, h]

lemma putItems_lastWrite_none (xs : List Item) :
    ∀ (tbl : Table) (k : Str × Str), lastWrite xs k = none → putItems tbl xs k = tbl k := by
  induction xs with
  | nil => intro tbl k _; rfl
  | cons it rest ih =>
    intro tbl k h
    have h1 : lastWrite rest k = none := by
      cases hr : lastWrite rest k with
      | none => rfl
      | some r => rw [lastWrite, hr] at h; simp at h
    have h2 : ¬ itemKey it = k := by
      intro hk
      rw [lastWrite, h1] at h
      simp [hk] at h
    have hstep : putItems tbl (it :: rest) k = putItem tbl it k :=
      ih (putItem tbl it) k h1
    rw [hstep]
    simp [putItem, h2]

lemma putItems_lastWrite_some (xs : List Item) :
    ∀ (tbl : Table) (k : Str × Str) (it : Item),
      lastWrite xs k = some it → putItems tbl xs k = some it := by
  induction xs with
  | nil => intro tbl k it h; cases h
  | cons hd rest ih =>
    intro tbl k it h
    cases hr : lastWrite rest k with
    | some r =>
      have hit : r = it := by rw [lastWrite, hr] at h; exact Option.some.inj h
      subst hit
      exact ih (putItem tbl hd) k r hr
    | none =>
      rw [lastWrite, hr] at h
      by_cases hk : itemKey hd = k
      · rw [if_pos hk] at h
        have hit : hd = it := Option.some.inj h
        subst hit
        have hnone := putItems_lastWrite_none rest (putItem tbl hd) k hr
        show putItems (putItem tbl hd) rest k = some hd
        rw [hnone]
        simp [putItem, hk]
      · rw [if_neg hk] at h; cases h

lemma putItems_twice (tbl : Table) (xs : List Item) :
    putItems (putItems tbl xs) xs = putItems tbl xs := by
  funext k
  cases h : lastWrite xs k with
  | none => rw [putItems_lastWrite_none xs (putItems tbl xs) k h]
  | some it =>
    rw [putItems_lastWrite_some xs (putItems tbl xs) k it h,
        putItems_lastWrite_some xs tbl k it h]

/-- C2: key extraction splits on slash and fails when fewer than two
segments result; otherwise the symbol is the second segment and the
timestamp is the stem of the last segment with the first occurrence of the
symbol removed; the LYFT example yields LYFT and 2025-11-17_15-26-55, and
a key without a slash fails. -/
theorem C2_extract_contract :
    (∀ key : Str, extract_symbol_timestamp key =
      if (splitOn '/' key).length < 2 then none
      else some ((splitOn '/' key).getD 1 [],
        replaceFirst ((splitOn '/' key).getD 1 [])
          ((splitOn '.' ((splitOn '/' key).getLastD [])).headD []))) ∧
    extract_symbol_timestamp (String.toList "stocks/LYFT/LYFT2025-11-17_15-26-55.csv")
      = some (String.toList "LYFT", String.toList "2025-11-17_15-26-55") ∧
    extract_symbol_timestamp (String.toList "stocksLYFT2025-11-17_15-26-55.csv") = none :=
  ⟨fun _ => rfl, by decide, by decide⟩

/-- C6: safe_decimal is total and returns the parsed decimal when the parse
succeeds and zero otherwise; on 12.5 it returns 25 halves, on abc and on
the empty string it returns zero. -/
theorem C6_safe_decimal_total (v : Str) :
    safe_decimal v = (parseDecimal v).getD 0 ∧
    safe_decimal (String.toList "12.5") = 25 / 2 ∧
    safe_decimal (String.toList "abc") = 0 ∧
    safe_decimal (String.toList "") = 0 := by
  refine ⟨rfl, ?_, by decide, by decide⟩
  simp +decide [safe_decimal, parseDecimal, parseUnsignedDec, splitOn, splitOnAux,
    digitsToNat, String.toList]
  norm_num

/-- C9: only the first element of the nested Records array of a sub-message
determines the processing; further elements change nothing. -/
theorem C9_only_first_nested_record (fetch : Str → Str → Option (List Row))
    (r : S3Rec) (extras : List S3Rec) :
    processMessage fetch (SubMessage.parsed (r :: extras))
      = processMessage fetch (SubMessage.parsed [r]) := rfl



/-- C7: when the symbol does not head the filename stem but occurs inside
it, extraction deletes the first occurrence anywhere: if the stem is a
followed by pat followed by b and no occurrence of pat begins inside a,
replaceFirst deletes exactly that occurrence; concretely the key
stocks/LY/XLY1.csv yields symbol LY and timestamp X1. -/
theorem C7_remove_first_occurrence_anywhere (pat a b : Str)
    (hfirst : ∀ i, i < a.length →
      startsWith pat (List.drop i (a ++ (pat ++ b))) = false) :
    replaceFirst pat (a ++ (pat ++ b)) = a ++ b ∧
    extract_symbol_timestamp (String.toList "stocks/LY/XLY1.csv")
      = some (String.toList "LY", String.toList "X1") :=
  ⟨replaceFirst_first_occ pat a b hfirst, by decide⟩

theorem C7_witness :
    replaceFirst (String.toList "LY")
        (String.toList "X" ++ (String.toList "LY" ++ String.toList "1"))
      = String.toList "X" ++ String.toList "1" ∧
    extract_symbol_timestamp (String.toList "stocks/LY/XLY1.csv")
      = some (String.toList "LY", String.toList "X1") :=
  C7_remove_first_occurrence_anywhere (String.toList "LY") (String.toList "X")
    (String.toList "1") (by decide)

/-- C10: extraction never fails on a key with at least two segments, the
timestamp equals the stem unchanged when the symbol does not occur in it,
and for a two-segment key the symbol is the whole second segment with its
extension: stocks/LYFT.csv yields symbol LYFT.csv and timestamp LYFT. -/
theorem C10_extract_total_two_segments :
    (∀ key : Str, 2 ≤ (splitOn '/' key).length →
      (extract_symbol_timestamp key).isSome = true) ∧
    (∀ pat s : Str, occursIn pat s = false → replaceFirst pat s = s) ∧
    extract_symbol_timestamp (String.toList "stocks/LYFT.csv")
      = some (String.toList "LYFT.csv", String.toList "LYFT") := by
  refine ⟨?_, fun pat s h => replaceFirst_no_occ pat s h, by decide⟩
  intro key h
  simp [extract_symbol_timestamp, Nat.not_lt.mpr h]

theorem C10_witness :
    (extract_symbol_timestamp (String.toList "a/b")).isSome = true ∧
    replaceFirst (String.toList "zz") (String.toList "b") = String.toList "b" :=
  ⟨C10_extract_total_two_segments.1 (String.toList "a/b") (by decide),
   C10_extract_total_two_segments.2.1 (String.toList "zz") (String.toList "b") (by decide)⟩

/-- C5: a file whose rows all have integer-parseable volume succeeds and
submits exactly one upsert per row in file order; the i-th upsert carries
partition key symbol underscore timestamp (the same for all rows) and sort
key date underscore i. -/
theorem C5_upsert_keys (symbol timestamp : Str) (rows : List Row)
    (h : ∀ r ∈ rows, (parseInt r.volume).isSome = true) :
    (processRows symbol timestamp rows).2 = true ∧
    (processRows symbol timestamp rows).1.length = rows.length ∧
    ∀ i, i < rows.length →
      ((processRows symbol timestamp rows).1.getD i dItem).symbol_timestamp
        = symbol ++ '_' :: timestamp ∧
      ((processRows symbol timestamp rows).1.getD i dItem).row_key
        = (rows.getD i dRow).date ++ '_' :: natToStr i := by
  obtain ⟨h1, h2, h3⟩ := processRowsFrom_all_ok symbol timestamp rows 0 h
  refine ⟨h1, h2, ?_⟩
  intro i hi
  obtain ⟨ha, hb⟩ := h3 i hi
  exact ⟨ha, by simpa using hb⟩

theorem C5_witness :
    (processRows (String.toList "AB") (String.toList "T")
        [Row.mk (String.toList "d0") (String.toList "1") (String.toList "2")
          (String.toList "3") (String.toList "4") (String.toList "10")]).2 = true ∧
    ((processRows (String.toList "AB") (String.toList "T")
        [Row.mk (String.toList "d0") (String.toList "1") (String.toList "2")
          (String.toList "3") (String.toList "4") (String.toList "10")]).1.getD 0 dItem).row_key
      = (([Row.mk (String.toList "d0") (String.toList "1") (String.toList "2")
          (String.toList "3") (String.toList "4") (String.toList "10")].getD 0 dRow)).date
        ++ '_' :: natToStr 0 := by
  have h := C5_upsert_keys (String.toList "AB") (String.toList "T")
    [Row.mk (String.toList "d0") (String.toList "1") (String.toList "2")
      (String.toList "3") (String.toList "4") (String.toList "10")] (by decide)
  exact ⟨h.1, (h.2.2 0 (by decide)).2⟩



/-- C4: the handler returns status 400 with message No SQS Records, and
performs no writes, exactly on an event without the Records key; an event
with an empty Records list returns 200 reporting zero files and zero rows;
and every normal completion returns 200 with the message built from the
two counters by processedMessage. -/
theorem C4_return_values (fetch : Str → Str → Option (List Row)) :
    lambda_handler fetch ⟨none⟩ = (some ⟨400, String.toList "No SQS Records"⟩, []) ∧
    lambda_handler fetch ⟨some []⟩ = (some ⟨200, processedMessage 0 0⟩, []) ∧
    ∀ msgs : List SubMessage, (lambda_handler fetch ⟨some msgs⟩).1 =
      if (processMessages fetch msgs).completed then
        some ⟨200, processedMessage (processMessages fetch msgs).files
          (processMessages fetch msgs).rows⟩
      else none := by
  refine ⟨rfl, rfl, ?_⟩
  intro msgs
  simp only [lambda_handler]
  cases hc : (processMessages fetch msgs).completed <;> simp [hc]

/-- C1 counterexample: an envelope that does have a Records list, whose
single sub-message parses to a nested record without bucket name and
object key, makes the handler raise (modelled as none) instead of
returning a 200 summary. -/
theorem C1_counterexample :
    (Event.mk (some [SubMessage.parsed [S3Rec.mk none none]])).records.isSome = true ∧
    (lambda_handler (fun _ _ => none)
        (Event.mk (some [SubMessage.parsed [S3Rec.mk none none]]))).1 = none :=
  ⟨rfl, rfl⟩

/-- C1 amended: a sub-message failing inside the guarded parse step is
skipped and changes nothing of the batch outcome, and the handler returns
the 200 summary whenever the envelope has a Records list and every
sub-message either fails inside the guarded step or carries bucket name
and object key in its first nested record. -/
theorem C1_skip_and_200_when_fields_present (fetch : Str → Str → Option (List Row))
    (msgs ms : List SubMessage)
    (h : ∀ m ∈ msgs, wellFormedMsg m = true) :
    (lambda_handler fetch ⟨some msgs⟩).1
      = some ⟨200, processedMessage (processMessages fetch msgs).files
          (processMessages fetch msgs).rows⟩ ∧
    processMessage fetch SubMessage.malformed = ([], MsgResult.skipped) ∧
    processMessages fetch (SubMessage.malformed :: ms) = processMessages fetch ms := by
  have hc := processMessages_completed fetch msgs h
  refine ⟨?_, rfl, processMessages_malformed_cons fetch ms⟩
  simp [lambda_handler, hc]

theorem C1_witness :
    (lambda_handler (fun _ _ => none) ⟨some [SubMessage.malformed]⟩).1
      = some ⟨200, processedMessage
          (processMessages (fun _ _ => none) [SubMessage.malformed]).files
          (processMessages (fun _ _ => none) [SubMessage.malformed]).rows⟩ ∧
    processMessage (fun _ _ => none) SubMessage.malformed = ([], MsgResult.skipped) ∧
    processMessages (fun _ _ => none) (SubMessage.malformed :: [])
      = processMessages (fun _ _ => none) [] :=
  C1_skip_and_200_when_fields_present (fun _ _ => none) [SubMessage.malformed] []
    (by decide)

/-- C3: a row with a volume that int() rejects makes the file fail: the
write loop reports failure and submits no item beyond those before the bad
row, while a batch headed by that file keeps the counters and the
completion flag of the remaining sibling messages unchanged, so the failed
file is excluded from both counters. -/
theorem C3_volume_failure_scoped (fetch : Str → Str → Option (List Row))
    (b k symbol timestamp : Str) (pre post : List Row) (bad : Row)
    (ms : List SubMessage)
    (hext : extract_symbol_timestamp k = some (symbol, timestamp))
    (hfetch : fetch b k = some (pre ++ bad :: post))
    (hbad : parseInt bad.volume = none) :
    (processRows symbol timestamp (pre ++ bad :: post)).2 = false ∧
    (processRows symbol timestamp (pre ++ bad :: post)).1.length ≤ pre.length ∧
    (processMessages fetch (SubMessage.parsed [S3Rec.mk (some b) (some k)] :: ms)).files
      = (processMessages fetch ms).files ∧
    (processMessages fetch (SubMessage.parsed [S3Rec.mk (some b) (some k)] :: ms)).rows
      = (processMessages fetch ms).rows ∧
    (processMessages fetch (SubMessage.parsed [S3Rec.mk (some b) (some k)] :: ms)).completed
      = (processMessages fetch ms).completed := by
  obtain ⟨h1, h2⟩ := processRowsFrom_bad symbol timestamp post bad hbad pre 0
  have hmsg := processMessage_skip_bad_volume fetch b k symbol timestamp
    (pre ++ bad :: post) hext hfetch h1
  have hcons := processMessages_cons_skipped fetch
    (SubMessage.parsed [S3Rec.mk (some b) (some k)]) ms (by rw [hmsg])
  exact ⟨h1, h2, by rw [hcons], by rw [hcons], by rw [hcons]⟩

/-- C8: key derivation is a pure function of the message contents, so two
runs on equal inputs produce equal item lists, and replaying the same item
list over the table leaves it unchanged: every upsert of the second run
overwrites the identical key with the identical item. -/
theorem C8_reprocess_same_keys (fetch : Str → Str → Option (List Row))
    (m1 m2 : SubMessage) (tbl : Table) (h : m1 = m2) :
    processMessage fetch m1 = processMessage fetch m2 ∧
    putItems (putItems tbl (processMessage fetch m1).1) (processMessage fetch m2).1
      = putItems tbl (processMessage fetch m1).1 := by
  subst h
  exact ⟨rfl, putItems_twice tbl (processMessage fetch m1).1⟩

theorem C8_witness :
    processMessage (fun _ _ => none) SubMessage.malformed
      = processMessage (fun _ _ => none) SubMessage.malformed ∧
    putItems (putItems (fun _ => none : Table)
        (processMessage (fun _ _ => none) SubMessage.malformed).1)
        (processMessage (fun _ _ => none) SubMessage.malformed).1
      = putItems (fun _ => none : Table)
        (processMessage (fun _ _ => none) SubMessage.malformed).1 :=
  C8_reprocess_same_keys (fun _ _ => none) SubMessage.malformed SubMessage.malformed
    (fun _ => none : Table) rfl



theorem C3_witness :
    (processRows (String.toList "A") (String.toList "1")
        [Row.mk (String.toList "d") (String.toList "1") (String.toList "2")
          (String.toList "3") (String.toList "4") (String.toList "x")]).2 = false ∧
    (processMessages (fun _ _ => some [Row.mk (String.toList "d") (String.toList "1")
          (String.toList "2") (String.toList "3") (String.toList "4") (String.toList "x")])
        [SubMessage.parsed [S3Rec.mk (some (String.toList "bkt"))
          (some (String.toList "stocks/A/A1.csv"))]]).files
      = (processMessages (fun _ _ => some [Row.mk (String.toList "d") (String.toList "1")
          (String.toList "2") (String.toList "3") (String.toList "4") (String.toList "x")])
          []).files := by
  have h := C3_volume_failure_scoped
    (fun _ _ => some [Row.mk (String.toList "d") (String.toList "1") (String.toList "2")
      (String.toList "3") (String.toList "4") (String.toList "x")])
    (String.toList "bkt") (String.toList "stocks/A/A1.csv")
    (String.toList "A") (String.toList "1") [] []
    (Row.mk (String.toList "d") (String.toList "1") (String.toList "2")
      (String.toList "3") (String.toList "4") (String.toList "x")) []
    (by decide) rfl (by decide)
  exact ⟨h.1, h.2.2.1⟩

end Stocks
